import Mathlib

/-!
Verification of `cmd/lotus-provider/migrate.go` (command `from-miner`).

The development shallowly embeds the core of the migration command:
base64 raw-standard secret encoding, bearer-token extraction, the
field translation into the target schema, target-layer name
resolution with its duplicate check, the base-layer bootstrap and the
two SQL inserts, and the follow-up `dbSettings` message derivation.
Bytes are modelled as `Nat` values below 256; Go strings as Lean
strings; fallible or faulting steps return `Option`/`Except`.
-/

namespace LotusMigrate

/-- One sextet (a value below 64) to its character in the standard
base64 alphabet A-Z, a-z, 0-9, +, / as used by Go
`encoding/base64` `RawStdEncoding` (migrate.go line 140). -/
def sextetToChar (n : Nat) : Char :=
  if n < 26 then Char.ofNat (65 + n)
  else if n < 52 then Char.ofNat (97 + (n - 26))
  else if n < 62 then Char.ofNat (48 + (n - 52))
  else if n = 62 then '+'
  else '/'

/-- Inverse character table of the standard base64 alphabet. -/
def charToSextet (c : Char) : Option Nat :=
  if 65 ≤ c.toNat && c.toNat ≤ 90 then some (c.toNat - 65)
  else if 97 ≤ c.toNat && c.toNat ≤ 122 then some (26 + (c.toNat - 97))
  else if 48 ≤ c.toNat && c.toNat ≤ 57 then some (52 + (c.toNat - 48))
  else if c = '+' then some 62
  else if c = '/' then some 63
  else none

/-- Big-endian regrouping of 8-bit bytes into 6-bit sextets, with the
unpadded tail treatment of `RawStdEncoding`: a final single byte
yields two sextets and a final pair of bytes yields three. -/
def bytesToSextets : List Nat → List Nat
  | [] => []
  | [b0] => [b0 / 4, b0 % 4 * 16]
  | [b0, b1] => [b0 / 4, b0 % 4 * 16 + b1 / 16, b1 % 16 * 4]
  | b0 :: b1 :: b2 :: rest =>
      b0 / 4 :: (b0 % 4 * 16 + b1 / 16) :: (b1 % 16 * 4 + b2 / 64) :: b2 % 64 ::
        bytesToSextets rest

/-- Inverse regrouping of sextets into bytes.  A single trailing
sextet is invalid, and nonzero trailing bits are rejected, so this is
the exact inverse of `bytesToSextets`. -/
def sextetsToBytes : List Nat → Option (List Nat)
  | [] => some []
  | [_] => none
  | [s0, s1] => if s1 % 16 = 0 then some [s0 * 4 + s1 / 16] else none
  | [s0, s1, s2] =>
      if s2 % 4 = 0 then some [s0 * 4 + s1 / 16, s1 % 16 * 16 + s2 / 4] else none
  | s0 :: s1 :: s2 :: s3 :: rest =>
      match sextetsToBytes rest with
      | some bs =>
          some ((s0 * 4 + s1 / 16) :: (s1 % 16 * 16 + s2 / 4) :: (s2 % 4 * 64 + s3) :: bs)
      | none => none

/-- Go `base64.RawStdEncoding.EncodeToString` over a byte list:
regroup into sextets, then map through the standard alphabet.  There
is no error path; the empty input encodes to the empty string. -/
def rawStdEncode (bs : List Nat) : String :=
  String.mk ((bytesToSextets bs).map sextetToChar)

/-- Character-wise decoding through the inverse alphabet table. -/
def decodeChars : List Char → Option (List Nat)
  | [] => some []
  | c :: cs =>
      match charToSextet c, decodeChars cs with
      | some s, some ss => some (s :: ss)
      | _, _ => none

/-- Inverse of `rawStdEncode`: raw-standard (unpadded) base64
decoding back to bytes. -/
def rawStdDecode (s : String) : Option (List Nat) :=
  match decodeChars s.data with
  | some ss => sextetsToBytes ss
  | none => none

theorem sextets_inv : ∀ bs : List Nat, (∀ b ∈ bs, b < 256) →
    sextetsToBytes (bytesToSextets bs) = some bs
  | [], _ => rfl
  | [b0], h => by
      have h0 : b0 < 256 := h b0 (by simp)
      simp only [bytesToSextets, sextetsToBytes]
      rw [if_pos (by omega)]
      have e : b0 / 4 * 4 + b0 % 4 * 16 / 16 = b0 := by omega
      rw [e]
  | [b0, b1], h => by
      have h0 : b0 < 256 := h b0 (by simp)
      have h1 : b1 < 256 := h b1 (by simp)
      simp only [bytesToSextets, sextetsToBytes]
      rw [if_pos (by omega)]
      have e0 : b0 / 4 * 4 + (b0 % 4 * 16 + b1 / 16) / 16 = b0 := by omega
      have e1 : (b0 % 4 * 16 + b1 / 16) % 16 * 16 + b1 % 16 * 4 / 4 = b1 := by omega
      rw [e0, e1]
  | b0 :: b1 :: b2 :: rest, h => by
      have h0 : b0 < 256 := h b0 (by simp)
      have h1 : b1 < 256 := h b1 (by simp)
      have h2 : b2 < 256 := h b2 (by simp)
      have ih := sextets_inv rest (fun b hb => h b (by simp [hb]))
      simp only [bytesToSextets, sextetsToBytes, ih]
      have e0 : b0 / 4 * 4 + (b0 % 4 * 16 + b1 / 16) / 16 = b0 := by omega
      have e1 : (b0 % 4 * 16 + b1 / 16) % 16 * 16 + (b1 % 16 * 4 + b2 / 64) / 4 = b1 := by
        omega
      have e2 : (b1 % 16 * 4 + b2 / 64) % 4 * 64 + b2 % 64 = b2 := by omega
      rw [e0, e1, e2]

theorem sextets_lt : ∀ bs : List Nat, (∀ b ∈ bs, b < 256) →
    ∀ s ∈ bytesToSextets bs, s < 64
  | [], _ => by simp [bytesToSextets]
  | [b0], h => by
      have h0 : b0 < 256 := h b0 (by simp)
      simp only [bytesToSextets, List.mem_cons, List.not_mem_nil, or_false]
      rintro s (rfl | rfl) <;> omega
  | [b0, b1], h => by
      have h0 : b0 < 256 := h b0 (by simp)
      have h1 : b1 < 256 := h b1 (by simp)
      simp only [bytesToSextets, List.mem_cons, List.not_mem_nil, or_false]
      rintro s (rfl | rfl | rfl) <;> omega
  | b0 :: b1 :: b2 :: rest, h => by
      have h0 : b0 < 256 := h b0 (by simp)
      have h1 : b1 < 256 := h b1 (by simp)
      have h2 : b2 < 256 := h b2 (by simp)
      have ih := sextets_lt rest (fun b hb => h b (by simp [hb]))
      simp only [bytesToSextets, List.mem_cons]
      rintro s (rfl | rfl | rfl | rfl | hs)
      · omega
      · omega
      · omega
      · omega
      · exact ih s hs

theorem char_inv : ∀ n : Nat, n < 64 → charToSextet (sextetToChar n) = some n := by
  decide

theorem decodeChars_inv : ∀ ss : List Nat, (∀ s ∈ ss, s < 64) →
    decodeChars (ss.map sextetToChar) = some ss
  | [], _ => rfl
  | s :: ss, h => by
      have hs := char_inv s (h s (by simp))
      have ih := decodeChars_inv ss (fun x hx => h x (by simp [hx]))
      simp only [List.map_cons, decodeChars, hs, ih]

theorem rawStd_inv (bs : List Nat) (hb : ∀ b ∈ bs, b < 256) :
    rawStdDecode (rawStdEncode bs) = some bs := by
  unfold rawStdEncode rawStdDecode
  rw [show (String.mk ((bytesToSextets bs).map sextetToChar)).data
        = (bytesToSextets bs).map sextetToChar from rfl]
  rw [decodeChars_inv _ (sextets_lt bs hb)]
  exact sextets_inv bs hb

/-- Bearer token extraction, embedded from migrate.go line 148:
`header.Get("Authorization")[7:]`.  The source slices without any
length guard; a Go slice expression `s[7:]` panics (slice bounds out
of range) when `len(s) < 7`, which the model expresses as `none`. -/
def chainApiToken (auth : String) : Option String :=
  if auth.length < 7 then none else some (auth.drop 7)

/-- Modelled from the spec: the `Subsystems` section of the target
schema `config.LotusProviderConfig`.  The config package is outside
the excerpt; only the field the migration touches is carried. -/
structure SubsystemsConfig where
  EnableWindowPost : Bool
  deriving DecidableEq, Repr

/-- Modelled from the spec: the `Addresses` section of the target
schema.  `MinerAddresses` is the translated field; `PreCommitControl`
stands for the sibling fields the migration never touches. -/
structure AddressesConfig where
  MinerAddresses : List String
  PreCommitControl : List String
  deriving DecidableEq, Repr

/-- Modelled from the spec: the `Apis` section of the target schema,
holding the two translated fields. -/
structure ApisConfig where
  StorageRPCSecret : String
  ChainApiInfo : List String
  deriving DecidableEq, Repr

/-- Modelled from the spec: the `Proving` section of the target
schema.  The legacy `StorageMiner` schema has a structurally identical
`Proving` section, so the TOML decode on migrate.go line 114 fills it
from the legacy file; the migration itself never touches it. -/
structure ProvingConfig where
  ParallelCheckLimit : Int
  deriving DecidableEq, Repr

/-- Modelled from the spec: the target schema
`config.LotusProviderConfig` (the config package is outside the
excerpt), restricted to the four translated fields plus untouched
representatives. -/
structure LotusProviderConfig where
  Subsystems : SubsystemsConfig
  Addresses : AddressesConfig
  Apis : ApisConfig
  Proving : ProvingConfig
  deriving DecidableEq, Repr

/-- Modelled from the spec: the serialized default configuration of
the target schema (`getDefaultConfig`, outside the excerpt).  The
concrete values are placeholders; no claim below depends on them
beyond their being fixed. -/
def defaultLotusProviderConfig : LotusProviderConfig where
  Subsystems := { EnableWindowPost := false }
  Addresses := { MinerAddresses := [], PreCommitControl := [] }
  Apis := { StorageRPCSecret := "", ChainApiInfo := [] }
  Proving := { ParallelCheckLimit := 128 }

/-- Field translation, embedded from migrate.go lines 109-151.  The
input `lpCfg` is the result of TOML-decoding the legacy miner
`config.toml` into the target schema (lines 109-117): the decode
starts from a fresh value and copies over every legacy setting whose
key also exists in the target schema ("Copy over identical
settings").  The translation then overwrites `MinerAddresses` (line
130), `StorageRPCSecret` (line 140), `ChainApiInfo` (line 148, via
the unguarded slice modelled by `chainApiToken`) and
`EnableWindowPost` (line 151).  `none` models the slice fault. -/
def translate (lpCfg : LotusProviderConfig) (minerAddr : String)
    (jsKey : List Nat) (authHeader : String) : Option LotusProviderConfig :=
  match chainApiToken authHeader with
  | none => none
  | some tok =>
      some { lpCfg with
        Addresses := { lpCfg.Addresses with MinerAddresses := [minerAddr] }
        Apis := { StorageRPCSecret := rawStdEncode jsKey, ChainApiInfo := [tok] }
        Subsystems := { lpCfg.Subsystems with EnableWindowPost := true } }

/-- Errors surfaced by the migration core. -/
inductive MigError where
  /-- migrate.go line 102: "the overwrite flag is needed to replace
  existing layer: " followed by the conflicting title. -/
  | duplicateLayer (title : String)
  deriving DecidableEq, Repr

/-- Target layer name resolution, embedded from migrate.go lines
97-104: an empty requested name derives `mig` followed by the count
of existing non-empty-content titles; a non-empty requested name that
is already a title needs the overwrite boolean, else it is returned
unchanged. -/
def resolveTargetName (requested : String) (titles : List String)
    (overwrite : Bool) : Except MigError String :=
  if requested = "" then
    Except.ok ("mig" ++ toString titles.length)
  else if titles.contains requested && !overwrite then
    Except.error (MigError.duplicateLayer requested)
  else
    Except.ok requested

/-- Single quote character (ASCII 39), used to spell the SQL texts. -/
def sq : String := String.mk [Char.ofNat 39]

/-- The base-layer bootstrap SQL text of migrate.go line 168, equal to
INSERT INTO harmony_config (title, config) VALUES (<sq>base<sq>, <sq>$1<sq>)
with <sq> the single quote.  Note that both VALUES entries are
single-quoted SQL string literals: the `$1` is quoted, so it is not a
parameter placeholder. -/
def baseInsertSQL : String :=
  "INSERT INTO harmony_config (title, config) VALUES (" ++ sq ++ "base" ++ sq
    ++ ", " ++ sq ++ "$1" ++ sq ++ ")"

/-- The target-layer insert SQL text of migrate.go line 174, with two
genuine parameter placeholders. -/
def targetInsertSQL : String :=
  "INSERT INTO harmony_config (title, config) VALUES ($1, $2)"

/-- The characters following the opening parenthesis of the VALUES
clause of a SQL insert text. -/
def afterValues : List Char → List Char
  | 'V' :: 'A' :: 'L' :: 'U' :: 'E' :: 'S' :: ' ' :: '(' :: rest => rest
  | _ :: rest => afterValues rest
  | [] => []

/-- The characters up to the closing parenthesis. -/
def untilParen : List Char → List Char
  | [] => []
  | ')' :: _ => []
  | c :: rest => c :: untilParen rest

/-- Splitting a VALUES list on its comma-space separators. -/
def splitArgs : List Char → List (List Char)
  | [] => [[]]
  | ',' :: ' ' :: rest => [] :: splitArgs rest
  | c :: rest =>
      match splitArgs rest with
      | t :: ts => (c :: t) :: ts
      | [] => [[c]]

/-- Decimal reading of a non-empty all-digit character list. -/
def decDigitsAux : List Char → Nat → Option Nat
  | [], acc => some acc
  | c :: rest, acc =>
      if 48 ≤ c.toNat && c.toNat ≤ 57 then
        decDigitsAux rest (acc * 10 + (c.toNat - 48))
      else none

/-- Decimal reading, rejecting the empty list. -/
def decDigits : List Char → Option Nat
  | [] => none
  | c :: rest => decDigitsAux (c :: rest) 0

/-- Interpretation of one token of a SQL VALUES list under the
relational store semantics: `$n` binds the n-th supplied argument,
while a single-quoted token is the enclosed string literal (the
quotes, character 39, are stripped). -/
def sqlTokenVal (args : List String) (t : List Char) : String :=
  match t with
  | '$' :: ds =>
      match decDigits ds with
      | some n => args.getD (n - 1) ""
      | none => String.mk t
  | _ => String.mk (t.drop 1).dropLast

/-- The row a store insert receives: each VALUES token evaluated
against the supplied arguments, as the external relational store
(spec section 6) would. -/
def execInsertRow (q : String) (args : List String) : String × String :=
  let toks := splitArgs (untilParen (afterValues q.data))
  (sqlTokenVal args (toks.getD 0 []), sqlTokenVal args (toks.getD 1 []))

/-- Result of a migration run: the resolved layer name and the rows
inserted, in order. -/
structure RunOutcome where
  name : String
  inserts : List (String × String)
  deriving DecidableEq, Repr

/-- The store-facing core of `fromMiner`, embedded from migrate.go
lines 91-177: list titles with non-empty content (the input), resolve
the target name (lines 97-104), bootstrap the base layer when `base`
is absent from the titles (lines 163-172), then insert the target
layer (line 174).  The translation between resolution and insertion
is modelled separately by `translate`; its serialized output is the
`configTOML` input here.  Store round-trips are modelled as the spec
models the store: an insert stores the row `execInsertRow` yields. -/
def fromMinerCore (titles : List String) (requested : String)
    (overwrite : Bool) (configTOML : String) (defaultTOML : String) :
    Except MigError RunOutcome :=
  (resolveTargetName requested titles overwrite).map fun name =>
    { name := name
      inserts :=
        (if titles.contains "base" then []
         else [execInsertRow baseInsertSQL [defaultTOML]])
        ++ [execInsertRow targetInsertSQL [name, configTOML]] }

/-- Store-connection settings: the `HarmonyDB` section shared by the
legacy configuration and the compiled-in defaults
(`config.DefaultStorageMiner().HarmonyDB`).  `Port` is a string in
the schema: migrate.go line 185 concatenates it directly. -/
structure HarmonyDBConfig where
  Hosts : List String
  Port : String
  Username : String
  Password : String
  Database : String
  deriving DecidableEq, Repr

/-- Follow-up override accumulation, embedded from migrate.go lines
179-195: `d` is the compiled-in default section and `l` the legacy
one.  The source compares only `Hosts[0]` for the host list, and
indexes it unconditionally (a Go index panic on an empty slice); the
model reads the first element with `headD ""` and no statement below
touches an empty host list. -/
def dbSettings (d l : HarmonyDBConfig) : String :=
  let s1 := if d.Hosts.headD "" ≠ l.Hosts.headD "" then
      "" ++ " --db-host=\"" ++ String.intercalate "," l.Hosts ++ "\"" else ""
  let s2 := if d.Port ≠ l.Port then s1 ++ " --db-port=" ++ l.Port else s1
  let s3 := if d.Username ≠ l.Username then
      s2 ++ " --db-user=\"" ++ l.Username ++ "\"" else s2
  let s4 := if d.Password ≠ l.Password then
      s3 ++ " --db-password=\"" ++ l.Password ++ "\"" else s3
  if d.Database ≠ l.Database then s4 ++ " --db-name=\"" ++ l.Database ++ "\"" else s4

/-- The host override fragment: present exactly when the first hosts
differ, quoting the full comma-joined legacy host list. -/
def hostFrag (d l : HarmonyDBConfig) : String :=
  if d.Hosts.headD "" ≠ l.Hosts.headD "" then
    " --db-host=\"" ++ String.intercalate "," l.Hosts ++ "\"" else ""

/-- The port override fragment: unquoted, present when ports differ. -/
def portFrag (d l : HarmonyDBConfig) : String :=
  if d.Port ≠ l.Port then " --db-port=" ++ l.Port else ""

/-- The username override fragment, quoted. -/
def userFrag (d l : HarmonyDBConfig) : String :=
  if d.Username ≠ l.Username then " --db-user=\"" ++ l.Username ++ "\"" else ""

/-- The password override fragment, quoted. -/
def passFrag (d l : HarmonyDBConfig) : String :=
  if d.Password ≠ l.Password then " --db-password=\"" ++ l.Password ++ "\"" else ""

/-- The database-name override fragment, quoted. -/
def dbNameFrag (d l : HarmonyDBConfig) : String :=
  if d.Database ≠ l.Database then " --db-name=\"" ++ l.Database ++ "\"" else ""

theorem dbSettings_decompose (d l : HarmonyDBConfig) :
    dbSettings d l =
      hostFrag d l ++ portFrag d l ++ userFrag d l ++ passFrag d l ++ dbNameFrag d l := by
  have hE : ("" : String).data = [] := rfl
  simp only [dbSettings, hostFrag, portFrag, userFrag, passFrag, dbNameFrag]
  split_ifs <;> simp [String.ext_iff, String.data_append, hE]

/-- A legacy configuration whose decoded form sets the Proving
section shared with the target schema. -/
def legacyCarryOver : LotusProviderConfig :=
  { defaultLotusProviderConfig with Proving := { ParallelCheckLimit := 129 } }

/-- A sample compiled-in default store-connection section. -/
def dbDefaultSample : HarmonyDBConfig where
  Hosts := ["127.0.0.1"]
  Port := "5433"
  Username := "yugabyte"
  Password := "yugabyte"
  Database := "yugabyte"

/-- A legacy store-connection section differing from the default only
past the first host. -/
def dbLegacyExtraHost : HarmonyDBConfig :=
  { dbDefaultSample with Hosts := ["127.0.0.1", "10.0.0.2"] }

/-- C1: a non-empty requested name that is already among the existing
non-empty-content titles makes the run fail with the duplicate-layer
error naming that title — before any insert — when the overwrite
boolean read on migrate.go line 101 is false; when it is true the
requested name is returned unchanged and the run proceeds to the
inserts. -/
theorem duplicateNamePolicy (requested cfgTOML dfltTOML : String)
    (titles : List String) (hne : requested ≠ "")
    (hin : requested ∈ titles) :
    fromMinerCore titles requested false cfgTOML dfltTOML =
        Except.error (MigError.duplicateLayer requested) ∧
    (fromMinerCore titles requested true cfgTOML dfltTOML).map (fun o => o.name) =
      Except.ok requested := by
  constructor
  · simp [fromMinerCore, resolveTargetName, hne, hin, Except.map]
  · simp [fromMinerCore, resolveTargetName, hne, Except.map]

/-- C1 witness: Scenario C, titles base and prod, requested prod. -/
theorem duplicateNamePolicyWitness :
    fromMinerCore ["base", "prod"] "prod" false "t" "d" =
        Except.error (MigError.duplicateLayer "prod") ∧
    (fromMinerCore ["base", "prod"] "prod" true "t" "d").map (fun o => o.name) =
      Except.ok "prod" :=
  duplicateNamePolicy "prod" "t" "d" ["base", "prod"] (by decide) (by decide)

/-- C2 (code bug): when base is absent from the titles the bootstrap
insert stores the literal string made of a dollar sign and the digit
one as the content of the base layer — the quoted placeholder in the
SQL text of migrate.go line 168 never binds the serialized default
configuration argument — while a present base title indeed suppresses
the bootstrap. -/
theorem baseBootstrapLiteral :
    fromMinerCore [] "" false "target-toml" "default-toml" =
      Except.ok ⟨"mig0", [("base", "$1"), ("mig0", "target-toml")]⟩ ∧
    fromMinerCore ["base"] "" false "target-toml" "default-toml" =
      Except.ok ⟨"mig1", [("mig1", "target-toml")]⟩ ∧
    "$1" ≠ "default-toml" :=
  ⟨rfl, rfl, by decide⟩

/-- C3 (code bug): the bearer-token extraction is not guarded: on any
Authorization value shorter than 7 the unguarded slice of migrate.go
line 148 faults (modelled by none), so the extraction is not total;
values of length at least 7 yield the suffix after the fixed
7-character prefix. -/
theorem bearerSliceUnguarded :
    chainApiToken "" = none ∧ chainApiToken "Basic" = none ∧
    chainApiToken "Bearer abc123" = some "abc123" ∧
    ¬ ∀ h : String, (chainApiToken h).isSome = true := by
  refine ⟨rfl, rfl, rfl, fun hall => ?_⟩
  have hfault := hall ""
  simp [chainApiToken] at hfault

/-- C4 counterexample: the translation input is the legacy file
decoded into the target schema (migrate.go lines 109-117), not the
schema default, so a legacy file that sets the shared Proving section
yields a translated configuration whose untranslated Proving field
differs from the schema default. -/
theorem translateCarriesLegacyField :
    (translate legacyCarryOver "f01000" [1] "Bearer tok").map
        (fun c => c.Proving.ParallelCheckLimit) = some 129 ∧
    defaultLotusProviderConfig.Proving.ParallelCheckLimit = 128 ∧
    (129 : Int) ≠ 128 :=
  ⟨rfl, rfl, by decide⟩

/-- C4 amended: every field other than MinerAddresses,
StorageRPCSecret, ChainApiInfo and EnableWindowPost equals the
corresponding field of the configuration decoded from the legacy
file, not the schema default: the untouched Proving section and the
untouched Addresses sibling are carried through unchanged. -/
theorem translateFrame (cfg : LotusProviderConfig) (a : String) (k : List Nat)
    (h : String) (h7 : 7 ≤ h.length) :
    (translate cfg a k h).map (fun c => c.Proving) = some cfg.Proving ∧
    (translate cfg a k h).map (fun c => c.Addresses.PreCommitControl) =
      some cfg.Addresses.PreCommitControl := by
  unfold translate chainApiToken
  rw [if_neg (by omega)]
  exact ⟨rfl, rfl⟩

/-- C4 amended witness at a concrete decoded configuration. -/
theorem translateFrameWitness :
    (translate legacyCarryOver "f0" [1] "Bearer t").map (fun c => c.Proving) =
        some legacyCarryOver.Proving ∧
    (translate legacyCarryOver "f0" [1] "Bearer t").map
        (fun c => c.Addresses.PreCommitControl) =
      some legacyCarryOver.Addresses.PreCommitControl :=
  translateFrame legacyCarryOver "f0" [1] "Bearer t" (by decide)

/-- C5: resolving an empty requested layer name returns exactly the
string mig followed by the decimal representation of the number of
existing non-empty-content titles (migrate.go lines 97-99). -/
theorem emptyNameDerivation (titles : List String) (overwrite : Bool) :
    resolveTargetName "" titles overwrite =
      Except.ok ("mig" ++ Nat.repr titles.length) := rfl

/-- C6 counterexample: with an empty raw secret key the translation
does not fail: it produces a configuration, and its StorageRPCSecret
is the empty string (raw-standard base64 of no bytes). -/
theorem emptyKeyEncodes :
    rawStdEncode [] = "" ∧
    (translate defaultLotusProviderConfig "f01000" [] "Bearer tok").map
        (fun c => c.Apis.StorageRPCSecret) = some "" :=
  ⟨rfl, rfl⟩

/-- C6 amended: the base64 encoding step never fails; with an empty
raw secret key the translation succeeds and assigns the empty string
to StorageRPCSecret. -/
theorem translateEmptyKey (cfg : LotusProviderConfig) (a h : String)
    (h7 : 7 ≤ h.length) :
    (translate cfg a [] h).map (fun c => c.Apis.StorageRPCSecret) = some "" := by
  unfold translate chainApiToken
  rw [if_neg (by omega)]
  rfl

/-- C6 amended witness. -/
theorem translateEmptyKeyWitness :
    (translate defaultLotusProviderConfig "f0" [] "Bearer abc").map
        (fun c => c.Apis.StorageRPCSecret) = some "" :=
  translateEmptyKey defaultLotusProviderConfig "f0" "Bearer abc" (by decide)

/-- C7: for every non-empty byte sequence below 256 the produced
StorageRPCSecret — the raw-standard base64 string `translate` assigns
— decodes through the inverse unpadded decoding back to exactly the
original key bytes. -/
theorem storageSecretRoundTrip (k : List Nat) (hne : k ≠ [])
    (hb : ∀ b ∈ k, b < 256) (cfg : LotusProviderConfig) (a h : String)
    (h7 : 7 ≤ h.length) :
    (translate cfg a k h).map (fun c => rawStdDecode c.Apis.StorageRPCSecret) =
      some (some k) := by
  unfold translate chainApiToken
  rw [if_neg (by omega)]
  show some (rawStdDecode (rawStdEncode k)) = some (some k)
  rw [rawStd_inv k hb]

/-- C7 witness on a concrete 4-byte key. -/
theorem storageSecretRoundTripWitness :
    (translate defaultLotusProviderConfig "f0" [0, 255, 77, 1] "Bearer abc").map
        (fun c => rawStdDecode c.Apis.StorageRPCSecret) =
      some (some [0, 255, 77, 1]) :=
  storageSecretRoundTrip [0, 255, 77, 1] (by decide) (by decide)
    defaultLotusProviderConfig "f0" "Bearer abc" (by decide)

/-- C8 counterexample: the source compares only the first host, so a
legacy host list that differs from the default beyond its first entry
produces no host override fragment at all: the whole accumulator
stays empty although the host lists differ. -/
theorem hostListDiffMissed :
    dbDefaultSample.Hosts ≠ dbLegacyExtraHost.Hosts ∧
    dbSettings dbDefaultSample dbLegacyExtraHost = "" := by
  refine ⟨by decide, ?_⟩
  rfl

/-- C8 amended: the follow-up override accumulator decomposes into
five fragments in fixed order; the quoted host fragment is keyed on
the first host only and embeds the full comma-joined legacy list, the
port fragment is unquoted, and each fragment is empty exactly when
its compared value matches the default. -/
theorem dbSettingsCharacterization (d l : HarmonyDBConfig) :
    (dbSettings d l =
      hostFrag d l ++ portFrag d l ++ userFrag d l ++ passFrag d l ++ dbNameFrag d l)
    ∧ (d.Hosts.headD "" = l.Hosts.headD "" → hostFrag d l = "")
    ∧ (d.Hosts.headD "" ≠ l.Hosts.headD "" →
        hostFrag d l = " --db-host=\"" ++ String.intercalate "," l.Hosts ++ "\"")
    ∧ (d.Port = l.Port → portFrag d l = "")
    ∧ (d.Port ≠ l.Port → portFrag d l = " --db-port=" ++ l.Port)
    ∧ (d.Username = l.Username → userFrag d l = "")
    ∧ (d.Username ≠ l.Username → userFrag d l = " --db-user=\"" ++ l.Username ++ "\"")
    ∧ (d.Password = l.Password → passFrag d l = "")
    ∧ (d.Password ≠ l.Password →
        passFrag d l = " --db-password=\"" ++ l.Password ++ "\"")
    ∧ (d.Database = l.Database → dbNameFrag d l = "")
    ∧ (d.Database ≠ l.Database →
        dbNameFrag d l = " --db-name=\"" ++ l.Database ++ "\"") := by
  refine ⟨dbSettings_decompose d l, ?_, ?_, ?_, ?_, ?_, ?_, ?_, ?_, ?_, ?_⟩ <;> intro hc
  · simp only [hostFrag]; rw [if_neg (not_not_intro hc)]
  · simp only [hostFrag]; rw [if_pos hc]
  · simp only [portFrag]; rw [if_neg (not_not_intro hc)]
  · simp only [portFrag]; rw [if_pos hc]
  · simp only [userFrag]; rw [if_neg (not_not_intro hc)]
  · simp only [userFrag]; rw [if_pos hc]
  · simp only [passFrag]; rw [if_neg (not_not_intro hc)]
  · simp only [passFrag]; rw [if_pos hc]
  · simp only [dbNameFrag]; rw [if_neg (not_not_intro hc)]
  · simp only [dbNameFrag]; rw [if_pos hc]

/-- C8 amended witness: Scenario D, only the port differs. -/
theorem dbSettingsCharacterizationWitness :
    dbSettings ⟨["127.0.0.1"], "5433", "yugabyte", "yugabyte", "yugabyte"⟩
        ⟨["127.0.0.1"], "5432", "yugabyte", "yugabyte", "yugabyte"⟩ =
      hostFrag ⟨["127.0.0.1"], "5433", "yugabyte", "yugabyte", "yugabyte"⟩
          ⟨["127.0.0.1"], "5432", "yugabyte", "yugabyte", "yugabyte"⟩
        ++ portFrag ⟨["127.0.0.1"], "5433", "yugabyte", "yugabyte", "yugabyte"⟩
          ⟨["127.0.0.1"], "5432", "yugabyte", "yugabyte", "yugabyte"⟩
        ++ userFrag ⟨["127.0.0.1"], "5433", "yugabyte", "yugabyte", "yugabyte"⟩
          ⟨["127.0.0.1"], "5432", "yugabyte", "yugabyte", "yugabyte"⟩
        ++ passFrag ⟨["127.0.0.1"], "5433", "yugabyte", "yugabyte", "yugabyte"⟩
          ⟨["127.0.0.1"], "5432", "yugabyte", "yugabyte", "yugabyte"⟩
        ++ dbNameFrag ⟨["127.0.0.1"], "5433", "yugabyte", "yugabyte", "yugabyte"⟩
          ⟨["127.0.0.1"], "5432", "yugabyte", "yugabyte", "yugabyte"⟩ :=
  (dbSettingsCharacterization _ _).1

/-- C9: an empty requested name derives mig followed by the count
without any check against the existing titles: with exactly one
existing non-empty-content row titled mig1, the derived name equals
that title, no duplicate-layer error is raised whatever the overwrite
flag, and the run proceeds to insert the target row under the
duplicate title. -/
theorem derivedNameUnchecked :
    (∀ (titles : List String) (overwrite : Bool),
      resolveTargetName "" titles overwrite =
        Except.ok ("mig" ++ toString titles.length)) ∧
    ∀ overwrite : Bool,
      "mig1" ∈ ["mig1"] ∧
      fromMinerCore ["mig1"] "" overwrite "tcfg" "dflt" =
        Except.ok ⟨"mig1", [("base", "$1"), ("mig1", "tcfg")]⟩ := by
  refine ⟨fun titles overwrite => rfl, fun overwrite => ⟨by decide, ?_⟩⟩
  cases overwrite <;> rfl

/-- C10: a requested name base with base absent from the existing
titles passes name resolution, yet the bootstrap of migrate.go lines
163-172 still runs, so the run attempts two inserts under the title
base — the bootstrap row and the target row. -/
theorem requestedBaseDoubleInsert :
    ∃ out, fromMinerCore [] "base" false "tcfg" "dflt" = Except.ok out ∧
      out.inserts.map Prod.fst = ["base", "base"] :=
  ⟨⟨"base", [("base", "$1"), ("base", "tcfg")]⟩, rfl, rfl⟩

end LotusMigrate
